import Mathlib

/-!
Verification development for the apm-server model indexer and firehose
ingestion handler.

The definitions below are a shallow embedding of:
  * `src/beater/api/firehose/handler.go` (package `firehose`), and
  * `src/unnamed/part_000` (package `modelindexer`).

Go strings are modelled as Lean `String` values (one `Char` per byte; all
inputs of interest are ASCII, and the byte `0x0a` used for line splitting is
never part of a multi-byte sequence, so splitting positions agree with Go's
byte-wise `strings.Split`).  Go `int`/`int64` are modelled as `Int`, with
`Int.div` for Go's truncated integer division.  Stateful code is modelled by
explicit state passing or by step relations on a state type.
-/

namespace ApmServer

/-! ## Firehose handler data model (src/beater/api/firehose/handler.go) -/

/-- `record` struct: one firehose record carrying base64-encoded payload bytes. -/
structure Record where
  data : String
deriving DecidableEq, Repr

/-- `firehoseLog` struct: the decoded JSON envelope. -/
structure FirehoseLog where
  requestId : String
  timestamp : Int
  records : List Record
deriving DecidableEq, Repr

/-- `result` struct: the JSON response body. -/
structure FirehoseResult where
  errorMessage : String
  requestId : String
  timestamp : Int
deriving DecidableEq, Repr

/-- `arn` struct: the parsed Amazon Resource Name. -/
structure Arn where
  partition : String
  service : String
  region : String
  accountID : String
  resource : String
deriving DecidableEq, Repr

/-- `model.DataStream`: the destination triple of an event. -/
structure DataStream where
  type : String
  dataset : String
  «namespace» : String
deriving DecidableEq, Repr

/-- `model.Processor`: processor kind attached to an event. -/
structure Processor where
  name : String
  event : String
deriving DecidableEq, Repr

/-- Modelled from the spec: `model.LogProcessor` (the `model` package is not
under src/); the spec says firehose events get `Processor = log`. -/
def LogProcessor : Processor := ⟨"log", "log"⟩

/-- Modelled from the spec: `datastreams.LogsType` (the `datastreams` package
is not under src/); the spec says `DataStream.Type=logs`. -/
def LogsType : String := "logs"

/-- `dataset` constant of package firehose (handler.go line 38). -/
def dataset : String := "firehose"

/-- `model.APMEvent`, restricted to the fields read or written by the code
under src/.  `timestampSec` models `Timestamp` as Unix seconds (the handler
sets it via `time.Unix(sec, 0)`); `bodyLen` models the length in bytes of the
event's encoded document body (the encoder itself lives outside src/). -/
structure APMEvent where
  timestampSec : Int := 0
  processor : Processor := ⟨"", ""⟩
  message : String := ""
  dataStream : DataStream := ⟨"", "", ""⟩
  cloudOriginAccountID : String := ""
  cloudOriginRegion : String := ""
  serviceOriginID : String := ""
  serviceOriginName : String := ""
  bodyLen : Nat := 0
deriving DecidableEq, Repr

/-! ## Base64 (Go `encoding/base64` StdEncoding, on newline-free input) -/

/-- Value of one standard-alphabet base64 character. -/
def b64Val (c : Char) : Option Nat :=
  if 'A' ≤ c ∧ c ≤ 'Z' then some (c.toNat - 65)
  else if 'a' ≤ c ∧ c ≤ 'z' then some (c.toNat - 97 + 26)
  else if '0' ≤ c ∧ c ≤ '9' then some (c.toNat - 48 + 52)
  else if c = '+' then some 62
  else if c = '/' then some 63
  else none

/-- Decode base64 characters, four at a time, into byte values. -/
def b64Groups : List Char → Option (List Nat)
  | [] => some []
  | a :: b :: c :: d :: rest =>
    match b64Val a, b64Val b with
    | some va, some vb =>
      if c = '=' ∧ d = '=' ∧ rest = [] then
        some [va * 4 + vb / 16]
      else if d = '=' ∧ rest = [] then
        match b64Val c with
        | some vc => some [va * 4 + vb / 16, (vb % 16) * 16 + vc / 4]
        | none => none
      else
        match b64Val c, b64Val d with
        | some vc, some vd =>
          (b64Groups rest).map
            (fun t => (va * 4 + vb / 16) :: ((vb % 16) * 16 + vc / 4) :: ((vc % 4) * 64 + vd) :: t)
        | _, _ => none
    | _, _ => none
  | _ => none

/-- `base64.StdEncoding.DecodeString`, with the decoded bytes viewed as a
string (`string(recordDec)` in Go). -/
def base64Decode (s : String) : Option String :=
  (b64Groups s.data).map (fun bs => String.mk (bs.map Char.ofNat))

/-- Error value standing in for Go's `base64.CorruptInputError`. -/
def corruptBase64 : String := "illegal base64 data"

/-- Go `strings.Split` for a single-character separator (the handler only
splits on `"\n"` and `":"`), over the character list. -/
def splitChars (sep : Char) : List Char → List (List Char)
  | [] => [[]]
  | c :: rest =>
    let r := splitChars sep rest
    if c = sep then [] :: r
    else
      match r with
      | [] => [[c]]
      | g :: gs => (c :: g) :: gs

/-- Go `strings.Split(s, sep)` for a single-character separator. -/
def splitOnChar (s : String) (sep : Char) : List String :=
  (splitChars sep s.data).map String.mk

/-! ## processFirehoseLog (handler.go lines 161-182) -/

/-- One event appended per line: the base event with `Timestamp`,
`Processor` and `Message` overwritten (handler.go lines 175-177). -/
def lineEvent (fh : FirehoseLog) (base : APMEvent) (line : String) : APMEvent :=
  { base with
    timestampSec := Int.tdiv fh.timestamp 1000
    processor := LogProcessor
    message := line }

/-- The `for _, line := range splitLines` loop of `processFirehoseLog`:
appends one event per line and stops at the first empty line (`break`). -/
def linesToEvents (fh : FirehoseLog) (base : APMEvent) : List String → List APMEvent
  | [] => []
  | line :: rest =>
    if line = "" then []
    else lineEvent fh base line :: linesToEvents fh base rest

/-- The `for _, record := range firehose.Records` loop of
`processFirehoseLog`, with the accumulating `batch`. -/
def processRecords (fh : FirehoseLog) (base : APMEvent) :
    List Record → List APMEvent → Except String (List APMEvent)
  | [], batch => .ok batch
  | r :: rest, batch =>
    match base64Decode r.data with
    | none => .error corruptBase64
    | some s => processRecords fh base rest (batch ++ linesToEvents fh base (splitOnChar s '\n'))

/-- `processFirehoseLog` (handler.go lines 161-182). -/
def processFirehoseLog (fh : FirehoseLog) (base : APMEvent) :
    Except String (List APMEvent) :=
  processRecords fh base fh.records []

/-- Modelled from the spec (amended reading): for each record, base64-decode,
split on newline, and append one event per line up to (not including) the
first empty line.  Reference definition used to characterise
`processFirehoseLog`. -/
def specRecords (fh : FirehoseLog) (base : APMEvent) :
    List Record → Except String (List APMEvent)
  | [] => .ok []
  | r :: rest =>
    match base64Decode r.data with
    | none => .error corruptBase64
    | some s =>
      (specRecords fh base rest).map
        (fun evs =>
          ((splitOnChar s '\n').takeWhile (fun l => l != "")).map (lineEvent fh base) ++ evs)

/-- Reference version of `processFirehoseLog` built from `specRecords`. -/
def processFirehoseLogSpec (fh : FirehoseLog) (base : APMEvent) :
    Except String (List APMEvent) :=
  specRecords fh base fh.records

/-! ## requestMetadata and parseARN (handler.go lines 184-221) -/

/-- Go `strings.SplitN` for a single-character separator and `n > 0`. -/
def splitN (s : String) (sep : Char) (n : Nat) : List String :=
  let parts := splitOnChar s sep
  if parts.length ≤ n then parts
  else
    parts.take (n - 1) ++
      [String.intercalate (String.mk [sep]) (parts.drop (n - 1))]

/-- `parseARN` (handler.go lines 206-221). -/
def parseARN (arnString : String) : Arn :=
  let sections := splitN arnString ':' 6
  if sections.length = 6 then
    ⟨sections.getD 1 "", sections.getD 2 "", sections.getD 3 "",
     sections.getD 4 "", sections.getD 5 ""⟩
  else ⟨"", "", "", "", ""⟩

/-- The request fields the handler reads, with the external collaborators
(authenticator, JSON decoder) abstracted to their outcomes: `authOk` is
whether `authenticator.Authenticate` succeeds, `body` is the result of
decoding the request body as a `firehoseLog` envelope. -/
structure RequestCtx where
  accessKey : String
  authOk : Bool
  method : String
  body : Option FirehoseLog
  sourceArn : String
deriving DecidableEq, Repr

/-- `requestMetadata` (handler.go lines 184-204): derive the base event from
request headers. -/
def requestMetadata (c : RequestCtx) : APMEvent :=
  let arnParsed := parseARN c.sourceArn
  { cloudOriginAccountID := arnParsed.accountID
    cloudOriginRegion := arnParsed.region
    serviceOriginID := c.sourceArn
    serviceOriginName := arnParsed.resource
    dataStream := ⟨LogsType, dataset, ""⟩ }

/-! ## Handler (handler.go lines 76-155) -/

/-- `request.ResultID` values used by the handler. -/
inductive ResultID where
  | unauthorized
  | methodNotAllowed
  | shuttingDown
  | fullQueue
  | internal
  | validAccepted
deriving DecidableEq, Repr

/-- Errors `ProcessBatch` may hand back to the firehose handler:
`publish.ErrChannelClosed`, `publish.ErrFull`, or anything else. -/
inductive ProcessBatchErr where
  | channelClosed
  | full
  | otherErr (msg : String)
deriving DecidableEq, Repr

/-- Errors returned by `handle`: a `requestError` with a result id, or a
plain error (mapped to Internal by the wrapper). -/
inductive HandleErr where
  | requestErr (id : ResultID) (msg : String)
  | other (msg : String)
deriving DecidableEq, Repr

/-- The `handle` closure (handler.go lines 77-135).  The batch processor is
abstracted as a function from the decoded batch to the error outcome of
`ProcessBatch`. -/
def handle (c : RequestCtx) (pb : List APMEvent → Option ProcessBatchErr) :
    Except HandleErr FirehoseResult :=
  if c.accessKey = "" then
    .error (.requestErr .unauthorized "Access key is required for using /firehose endpoint")
  else if c.authOk = false then
    .error (.requestErr .unauthorized "authentication failed")
  else if c.method ≠ "POST" then
    .error (.requestErr .methodNotAllowed "only POST requests are supported")
  else
    match c.body with
    | none => .error (.other "json decode error")
    | some fh =>
      match processFirehoseLog fh (requestMetadata c) with
      | .error e => .error (.other e)
      | .ok batch =>
        match pb batch with
        | some .channelClosed => .error (.requestErr .shuttingDown "server is shutting down")
        | some .full => .error (.requestErr .fullQueue "full queue")
        | some (.otherErr m) => .error (.other m)
        | none => .ok ⟨"", fh.requestId, fh.timestamp⟩

/-- Observable outcome written to the request context by the returned
handler: the result id, the explicitly-set status code (the code sets 200
only on the success path), the JSON body, and the content type. -/
structure HandlerOutcome where
  id : ResultID
  statusCode : Option Nat
  body : Option FirehoseResult
  contentType : String
deriving DecidableEq, Repr

/-- The wrapper returned by `Handler` (handler.go lines 137-154): maps
`requestError`s to their ids, other errors to Internal, and on success sets
the body and status code 200. -/
def Handler (c : RequestCtx) (pb : List APMEvent → Option ProcessBatchErr) :
    HandlerOutcome :=
  match handle c pb with
  | .error (.requestErr id _) => ⟨id, none, none, "application/json"⟩
  | .error (.other _) => ⟨.internal, none, none, "application/json"⟩
  | .ok res => ⟨.validAccepted, some 200, some res, "application/json"⟩

/-! ## Model indexer (src/unnamed/part_000, package modelindexer) -/

/-- `Config` struct.  `flushInterval` is a Go `time.Duration`, i.e. an
integer number of nanoseconds. -/
structure Config where
  maxRequests : Int
  flushBytes : Int
  flushInterval : Int
deriving DecidableEq, Repr

/-- Nanoseconds in one second (`time.Second`). -/
def nsPerSecond : Int := 1000000000

/-- `elasticsearch.BulkIndexerItem`, restricted to the fields the indexer
sets: the target index, the action string and the body (modelled by its
length in bytes). -/
structure BulkIndexerItem where
  index : String
  action : String
  bodyLen : Nat
deriving DecidableEq, Repr

/-- Modelled from the spec: the bulk buffer (`bulkIndexer`, whose definition
is not under src/) accumulates items; `Add` appends one item's metadata line
and one body line, charging their sum to `len` and incrementing the item
count (spec section 4.2). -/
structure BulkBuffer where
  items : List BulkIndexerItem
  len : Nat
deriving DecidableEq, Repr

/-- Modelled from the spec: `bulkIndexer.Add` (spec section 4.2).  The
metadata line is charged as the length of the target plus the action. -/
def addItem (b : BulkBuffer) (it : BulkIndexerItem) : BulkBuffer :=
  ⟨b.items.concat it, b.len + (it.index.length + it.action.length + it.bodyLen)⟩

/-- A freshly constructed (or `Reset`) bulk buffer. -/
def emptyBuffer : BulkBuffer := ⟨[], 0⟩

/-- The construction-time observations of `New` (part_000 lines 96-117):
the normalized config, the capacity of the `available` channel, the number
of bulk buffers placed into it, and the active buffer slot. -/
structure IndexerInit where
  config : Config
  availableCap : Nat
  availableBuffers : Nat
  active : Option BulkBuffer
deriving DecidableEq, Repr

/-- `New` (part_000 lines 96-117): normalize the config and allocate
`MaxRequests` bulk buffers into the `available` channel of that capacity. -/
def New (cfg : Config) : IndexerInit :=
  let mr := if cfg.maxRequests ≤ 0 then 10 else cfg.maxRequests
  let fb := if cfg.flushBytes ≤ 0 then 5 * 1024 * 1024 else cfg.flushBytes
  let fi := if cfg.flushInterval ≤ 0 then 30 * nsPerSecond else cfg.flushInterval
  ⟨⟨mr, fb, fi⟩, mr.toNat, mr.toNat, none⟩

/-! ## Flush worker accounting (Indexer.flush, part_000 lines 256-284) -/

/-- One per-item entry of the bulk response (`esutil.BulkIndexerResponseItem`
shape): an HTTP-like status and an error object with type and reason. -/
structure BulkItemInfo where
  status : Int
  errorType : String
  errorReason : String
deriving DecidableEq, Repr

/-- The per-item failure test of `Indexer.flush` (part_000 line 271):
`info.Error.Type != "" || info.Status > 201`. -/
def itemFailed (info : BulkItemInfo) : Bool :=
  info.errorType != "" || decide (info.status > 201)

/-- The nested response scan of `Indexer.flush` (part_000 lines 269-279):
`resp.Items` is a list of maps keyed by action; each map's values are
modelled as an inner list. -/
def countItemsFailed (items : List (List BulkItemInfo)) : Nat :=
  (items.map (fun item => (item.filter itemFailed).length)).sum

/-- Outcome of `bulkIndexer.Flush` as seen by `Indexer.flush`: a transport
error, or a response carrying per-item entries. -/
inductive FlushOutcome where
  | err (e : String)
  | ok (items : List (List BulkItemInfo))
deriving DecidableEq, Repr

/-- Observable effect of one `Indexer.flush` call: whether the store request
was issued, the deltas applied to the `eventsActive` and `eventsFailed`
counters, and the returned error. -/
structure FlushEffect where
  storeRequested : Bool
  activeDelta : Int
  failedDelta : Int
  result : Option String
deriving DecidableEq, Repr

/-- `Indexer.flush` (part_000 lines 256-284) for a buffer with `n` items:
`n = 0` returns nil without a store request; a transport error charges all
`n` items to `failed`; a response charges the items failing `itemFailed`.
In every `n > 0` case the deferred decrement removes `n` from `active`. -/
def flush (n : Nat) (outcome : FlushOutcome) : FlushEffect :=
  if n = 0 then ⟨false, 0, 0, none⟩
  else
    match outcome with
    | .err e => ⟨true, -(n : Int), (n : Int), some e⟩
    | .ok items => ⟨true, -(n : Int), (countItemsFailed items : Int), none⟩

/-! ## Counter invariant (spec invariant 1; part_000 lines 217-218, 256-284) -/

/-- The indexer's counters, with a ghost count of the items whose flush
completed successfully (spec: "successful items"). -/
structure Counters where
  added : Int
  active : Int
  failed : Int
  succeeded : Int
deriving DecidableEq, Repr

/-- Items of a completed flush that were not charged to `failed`: for an
`n > 0` flush with an ok response, `n` minus the failing items; zero for a
transport error (all items are charged to `failed`) and for `n = 0`. -/
def flushSucceededDelta (n : Nat) (o : FlushOutcome) : Int :=
  if n = 0 then 0
  else
    match o with
    | .err _ => 0
    | .ok items => (n : Int) - countItemsFailed items

/-- Atomic counter transitions of the indexer: `processEvent` increments
`added` and `active` together (part_000 lines 217-218), and a completed
flush applies the `flush` deltas (part_000 lines 256-284). -/
inductive CStep : Counters → Counters → Prop
  | append (s : Counters) :
      CStep s ⟨s.added + 1, s.active + 1, s.failed, s.succeeded⟩
  | flushDone (s : Counters) (n : Nat) (o : FlushOutcome) :
      CStep s ⟨s.added,
               s.active + (flush n o).activeDelta,
               s.failed + (flush n o).failedDelta,
               s.succeeded + flushSucceededDelta n o⟩

/-- Counter states reachable from the all-zero construction state. -/
inductive CReachable : Counters → Prop
  | init : CReachable ⟨0, 0, 0, 0⟩
  | step {s s' : Counters} : CReachable s → CStep s s' → CReachable s'

/-! ## Close (Indexer.Close, part_000 lines 124-149) -/

/-- Message of Go's `context.Canceled` error. -/
def contextCanceled : String := "context canceled"

/-- `errgroup.Group.Wait`: the first non-nil error among the flush task
results, in completion order. -/
def firstError : List (Option String) → Option String
  | [] => none
  | some e :: _ => some e
  | none :: rest => firstError rest

/-- Inputs determining one `Indexer.Close` call: the prior lifecycle flag,
whether an active buffer exists and its timer is still armed (so the final
synchronous handoff happens), whether `ctx` is cancelled while waiting for
in-flight flushes, and the results of all flush tasks of the indexer's
lifetime in completion order. -/
structure CloseModelIn where
  closing : Bool
  activePresent : Bool
  timerArmed : Bool
  ctxCancelledDuringWait : Bool
  flushResults : List (Option String)
deriving DecidableEq, Repr

/-- Observable outcome of `Indexer.Close`: the lifecycle flag afterwards,
whether the active buffer was handed off synchronously, whether the
`i.closed` channel (observed by the in-flight flush contexts) was closed
during the wait, and the returned error. -/
structure CloseModelOut where
  closingAfter : Bool
  flushedActiveSynchronously : Bool
  inFlightContextsCancelled : Bool
  ret : Option String
deriving DecidableEq, Repr

/-- `Indexer.Close` (part_000 lines 124-149): on the first call, set the
closing flag, arrange for `i.closed` to be closed when `ctx` is cancelled,
hand off the active buffer if its timer could be stopped, and in every case
return `i.g.Wait()` — the first flush error of the lifetime. -/
def closeIndexer (x : CloseModelIn) : CloseModelOut :=
  if x.closing then ⟨true, false, false, firstError x.flushResults⟩
  else
    ⟨true, x.activePresent && x.timerArmed, x.ctxCancelledDuringWait,
     firstError x.flushResults⟩

/-! ## processEvent and ProcessBatch (part_000 lines 160-254) -/

/-- The indexer state read and written by one `processEvent` call under
`activeMu`: the normalized config, the number of buffers in the `available`
channel, the active buffer slot, whether the flush timer is armed (running
and not yet fired), and the two counters the call touches. -/
structure IndexerState where
  config : Config
  available : Nat
  active : Option BulkBuffer
  timerArmed : Bool
  eventsAdded : Int
  eventsActive : Int
deriving DecidableEq, Repr

/-- The bulk item `processEvent` builds for an event (part_000 lines
185-190 and 210-214): the destination index written through the
`indexBuilder` and the `"create"` action. -/
def eventItem (ev : APMEvent) : BulkIndexerItem :=
  ⟨ev.dataStream.type ++ "-" ++ ev.dataStream.dataset ++ "-" ++ ev.dataStream.«namespace»,
   "create", ev.bodyLen⟩

/-- Result of one `processEvent` call: the new state with the buffer handed
off to a flush worker (if any), a context-cancellation error, or blocking
forever on the empty `available` channel. -/
inductive PEResult where
  | ok (s : IndexerState) (handoff : Option BulkBuffer)
  | ctxCanceled
  | blocked
deriving DecidableEq, Repr

/-- The tail of `processEvent` once an active buffer is present (part_000
lines 210-225): append the item, bump the counters, and on crossing
`FlushBytes` hand the buffer off when `timer.Stop()` succeeds. -/
def finishAppend (item : BulkIndexerItem) (s : IndexerState) : PEResult :=
  match s.active with
  | none => .blocked
  | some buf =>
    let buf := addItem buf item
    let s := { s with
      active := some buf
      eventsAdded := s.eventsAdded + 1
      eventsActive := s.eventsActive + 1 }
    if (buf.len : Int) ≥ s.config.flushBytes then
      if s.timerArmed then
        .ok { s with active := none, timerArmed := false } (some buf)
      else .ok s none
    else .ok s none

/-- `Indexer.processEvent` (part_000 lines 178-226).  The JSON encoder is an
external collaborator (eslegclient) and is modelled as always succeeding;
`ctxCancelled` says whether the caller's context is already cancelled.  The
context is consulted only in the `i.active == nil` branch, where the select
waits on the `available` channel. -/
def processEvent (ctxCancelled : Bool) (ev : APMEvent) (s : IndexerState) : PEResult :=
  let item := eventItem ev
  match s.active with
  | none =>
    if ctxCancelled then .ctxCanceled
    else if s.available = 0 then .blocked
    else
      finishAppend item
        { s with
          active := some emptyBuffer
          available := s.available - 1
          timerArmed := true }
  | some _ => finishAppend item s

/-- The most recently appended bulk item of a `processEvent` result: the
last item of the handed-off buffer, or of the active buffer. -/
def lastAppended : PEResult → Option BulkIndexerItem
  | .ok s hb =>
    match hb with
    | some buf => buf.items.getLast?
    | none =>
      match s.active with
      | some buf => buf.items.getLast?
      | none => none
  | _ => none

/-- Errors of `ProcessBatch`, as the caller observes them. -/
inductive PBErr where
  | closed
  | ctxCanceled
  | blocked
deriving DecidableEq, Repr

/-- The `for _, event := range *batch` loop of `ProcessBatch` (part_000
lines 170-175): process events in order, returning on the first error and
collecting the buffers handed off along the way. -/
def processEvents (ctxCancelled : Bool) (batch : List APMEvent)
    (s : IndexerState) (acc : List BulkBuffer) :
    Option PBErr × IndexerState × List BulkBuffer :=
  match batch with
  | [] => (none, s, acc)
  | ev :: rest =>
    match processEvent ctxCancelled ev s with
    | .ok s hb => processEvents ctxCancelled rest s (acc ++ hb.toList)
    | .ctxCanceled => (some .ctxCanceled, s, acc)
    | .blocked => (some .blocked, s, acc)

/-- The indexer state together with the lifecycle flag guarded by `i.mu`. -/
structure FullState where
  closing : Bool
  inner : IndexerState
deriving DecidableEq, Repr

/-- `Indexer.ProcessBatch` (part_000 lines 164-176): under the read lock,
return `ErrClosed` when the indexer has begun closing, otherwise process the
events in order. -/
def ProcessBatch (ctxCancelled : Bool) (batch : List APMEvent) (s : FullState) :
    Option PBErr × FullState × List BulkBuffer :=
  if s.closing then (some .closed, s, [])
  else
    let r := processEvents ctxCancelled batch s.inner []
    (r.1, ⟨s.closing, r.2.1⟩, r.2.2)

/-! ## Timer/handoff machine (part_000 lines 192-254)

A transition system over the state guarded by `activeMu`, at the granularity
of one critical section per step.  Buffers are named by the generation
counter `nextId`; `handoffs` records the buffers handed to flush workers. -/

/-- State guarded by `activeMu`, plus the flush timer's phase:
`timerRunning` is true between arming (`AfterFunc`/`Reset`) and firing or a
successful `Stop`; `firePending` is true between the timer firing and its
`flushActive` callback acquiring `activeMu`. -/
structure TimerMachine where
  active : Option Nat
  timerRunning : Bool
  firePending : Bool
  handoffs : List Nat
  nextId : Nat
deriving DecidableEq, Repr

/-- Taking a buffer from the pool when `i.active == nil` (part_000 lines
194-208): the slot is filled with a fresh buffer and the timer armed via
`AfterFunc` or `Reset`.  A `Reset` does not cancel an already-fired timer's
pending callback, so `firePending` is left unchanged. -/
def takeBufferStep (m : TimerMachine) : TimerMachine :=
  ⟨some m.nextId, true, m.firePending, m.handoffs, m.nextId + 1⟩

/-- The size-threshold branch of `processEvent` (part_000 lines 220-224):
`timer.Stop()` succeeds exactly when the timer is armed and has not fired;
on success the active buffer is handed off, otherwise nothing happens. -/
def thresholdStopStep (m : TimerMachine) (b : Nat) : TimerMachine :=
  if m.timerRunning then ⟨none, false, m.firePending, b :: m.handoffs, m.nextId⟩
  else m

/-- The timer firing: the timer is no longer running and its `flushActive`
callback becomes pending. -/
def timerFireStep (m : TimerMachine) : TimerMachine :=
  ⟨m.active, false, true, m.handoffs, m.nextId⟩

/-- The `flushActive` callback running under `activeMu` (part_000 lines
228-254): it hands off whatever buffer is in the active slot and clears
the slot. -/
def timerCallbackStep (m : TimerMachine) : TimerMachine :=
  ⟨none, m.timerRunning, false,
   (match m.active with
    | some b => b :: m.handoffs
    | none => m.handoffs), m.nextId⟩

/-- The critical sections touching the active slot and the timer. -/
inductive TStep : TimerMachine → TimerMachine → Prop
  | takeBuffer (m : TimerMachine) (h : m.active = none) : TStep m (takeBufferStep m)
  | appendBelow (m : TimerMachine) (b : Nat) (h : m.active = some b) : TStep m m
  | thresholdStop (m : TimerMachine) (b : Nat) (h : m.active = some b) :
      TStep m (thresholdStopStep m b)
  | timerFire (m : TimerMachine) (h : m.timerRunning = true) : TStep m (timerFireStep m)
  | timerCallback (m : TimerMachine) (h : m.firePending = true) :
      TStep m (timerCallbackStep m)

/-- Machine states reachable from construction (empty slot, timer unset). -/
inductive TReachable : TimerMachine → Prop
  | init : TReachable ⟨none, false, false, [], 0⟩
  | step {m m' : TimerMachine} : TReachable m → TStep m m' → TReachable m'

/-- Inductive invariant of the timer machine: an empty slot means the timer
is neither running nor fired-pending; a fired-pending timer is not running;
handed-off buffer names are below `nextId` and distinct; the active buffer
has not been handed off. -/
def TInv (m : TimerMachine) : Prop :=
  (m.active = none → m.timerRunning = false ∧ m.firePending = false) ∧
  (m.firePending = true → m.timerRunning = false) ∧
  (∀ x ∈ m.handoffs, x < m.nextId) ∧
  (∀ b, m.active = some b → b < m.nextId ∧ b ∉ m.handoffs) ∧
  m.handoffs.Nodup

/-- A ten-item bulk response in which item 4 has status 409 and the rest
status 201 (spec scenario "Per-item failure"). -/
def respOneOf10Failed : List (List BulkItemInfo) :=
  [[⟨201, "", ""⟩], [⟨201, "", ""⟩], [⟨201, "", ""⟩], [⟨409, "", ""⟩],
   [⟨201, "", ""⟩], [⟨201, "", ""⟩], [⟨201, "", ""⟩], [⟨201, "", ""⟩],
   [⟨201, "", ""⟩], [⟨201, "", ""⟩]]

/-! ## Theorems -/

/-- C7: construction normalizes the configuration (`MaxRequests` defaults to
10 when at most 0, `FlushBytes` to 5 MiB when at most 0, `FlushInterval` to
30 seconds when at most 0), and exactly `MaxRequests` bulk buffers are
placed into an idle pool channel of exactly that capacity, with the active
buffer slot empty. -/
theorem c7_new_normalizes (cfg : Config) :
    (New cfg).config.maxRequests = (if cfg.maxRequests ≤ 0 then 10 else cfg.maxRequests) ∧
    (New cfg).config.flushBytes =
      (if cfg.flushBytes ≤ 0 then 5 * 1024 * 1024 else cfg.flushBytes) ∧
    (New cfg).config.flushInterval =
      (if cfg.flushInterval ≤ 0 then 30 * nsPerSecond else cfg.flushInterval) ∧
    (New cfg).availableCap = (New cfg).config.maxRequests.toNat ∧
    (New cfg).availableBuffers = (New cfg).availableCap ∧
    (New cfg).active = none :=
  ⟨rfl, rfl, rfl, rfl, rfl, rfl⟩

/-- C6: whenever the indexer has begun closing (the closing flag is set),
`ProcessBatch` returns the `ErrClosed` error, leaves the state unchanged and
appends no events (no buffers are handed off). -/
theorem c6_closed_rejects (c : Bool) (batch : List APMEvent) (s : FullState)
    (h : s.closing = true) :
    ProcessBatch c batch s = (some PBErr.closed, s, []) := by
  simp [ProcessBatch, h]

/-- Witness for C6 at a concrete closed state and batch. -/
theorem c6_closed_rejects_witness :
    ProcessBatch true [{ bodyLen := 5 }]
        ⟨true, ⟨⟨10, 5242880, 30000000000⟩, 10, none, false, 7, 3⟩⟩ =
      (some PBErr.closed,
       ⟨true, ⟨⟨10, 5242880, 30000000000⟩, 10, none, false, 7, 3⟩⟩, []) :=
  c6_closed_rejects true [{ bodyLen := 5 }]
    ⟨true, ⟨⟨10, 5242880, 30000000000⟩, 10, none, false, 7, 3⟩⟩ rfl

/-- C5: for a flushed buffer with `n > 0` items whose bulk request succeeds,
`flush` increases `failed` by exactly the number of response items whose
status exceeds 201 or whose error type is non-empty, and decreases `active`
by `n`; a buffer with zero items causes no store request and returns nil. -/
theorem c5_flush_accounting (n : Nat) (resp : List (List BulkItemInfo))
    (o : FlushOutcome) (h : 0 < n) :
    (flush n (.ok resp)).failedDelta = countItemsFailed resp ∧
    (flush n (.ok resp)).activeDelta = -(n : Int) ∧
    (flush n (.ok resp)).result = none ∧
    (flush 0 o).storeRequested = false ∧
    (flush 0 o).activeDelta = 0 ∧
    (flush 0 o).failedDelta = 0 ∧
    (flush 0 o).result = none := by
  have hn : n ≠ 0 := Nat.pos_iff_ne_zero.mp h
  simp [flush, hn]

/-- Witness for C5: a ten-item bulk whose item 4 has status 409 charges
exactly one item to `failed` and removes ten from `active`. -/
theorem c5_flush_accounting_witness :
    ((flush 10 (.ok respOneOf10Failed)).failedDelta = countItemsFailed respOneOf10Failed ∧
     (flush 10 (.ok respOneOf10Failed)).activeDelta = -(10 : Int) ∧
     (flush 10 (.ok respOneOf10Failed)).result = none ∧
     (flush 0 (.err "boom")).storeRequested = false ∧
     (flush 0 (.err "boom")).activeDelta = 0 ∧
     (flush 0 (.err "boom")).failedDelta = 0 ∧
     (flush 0 (.err "boom")).result = none) ∧
    countItemsFailed respOneOf10Failed = 1 :=
  ⟨c5_flush_accounting 10 respOneOf10Failed (.err "boom") (by decide), by decide⟩

/-- C3 counterexample: with the context cancelled during the wait and a
single in-flight flush that completes without error, `Close` cancels the
in-flight flush contexts but returns nil — not the context error the claim
requires. -/
theorem c3_close_counterexample :
    (closeIndexer ⟨false, false, false, true, [none]⟩).inFlightContextsCancelled = true ∧
    (closeIndexer ⟨false, false, false, true, [none]⟩).ret = none ∧
    (none : Option String) ≠ some contextCanceled :=
  ⟨rfl, rfl, by decide⟩

/-- C3 (amended): `Close` waits for all in-flight flush tasks; if `ctx` is
cancelled during the wait the in-flight flush contexts are cancelled, but in
every case `Close` returns the first flush error observed during the
indexer's lifetime (or nil), not necessarily the context error. -/
theorem c3_close_returns_first_flush_error (x : CloseModelIn) (h : x.closing = false) :
    (closeIndexer x).ret = firstError x.flushResults ∧
    (closeIndexer x).inFlightContextsCancelled = x.ctxCancelledDuringWait ∧
    (closeIndexer x).closingAfter = true := by
  simp [closeIndexer, h]

/-- Witness for the amended C3 at a concrete close call with a cancelled
context and one failed flush. -/
theorem c3_close_returns_first_flush_error_witness :
    (closeIndexer ⟨false, true, true, true, [none, some "bulk indexing request failed"]⟩).ret =
      firstError [none, some "bulk indexing request failed"] ∧
    (closeIndexer ⟨false, true, true, true,
        [none, some "bulk indexing request failed"]⟩).inFlightContextsCancelled = true ∧
    (closeIndexer ⟨false, true, true, true,
        [none, some "bulk indexing request failed"]⟩).closingAfter = true :=
  c3_close_returns_first_flush_error
    ⟨false, true, true, true, [none, some "bulk indexing request failed"]⟩ rfl

/-- The three counter deltas of one completed flush cancel out. -/
theorem flush_deltas_sum (n : Nat) (o : FlushOutcome) :
    (flush n o).activeDelta + flushSucceededDelta n o + (flush n o).failedDelta = 0 := by
  by_cases hn : n = 0
  · simp [flush, flushSucceededDelta, hn]
  · cases o with
    | err e => simp [flush, flushSucceededDelta, hn]
    | ok items =>
      simp only [flush, flushSucceededDelta, hn, if_neg hn, ite_false]
      ring

/-- C2: at every reachable point of the counter transition system,
`added = active + (items whose flush completed successfully) + failed`,
where `added` and `active` are incremented together per appended event and a
completed flush adjusts `active` and `failed` atomically. -/
theorem c2_counter_invariant (s : Counters) (h : CReachable s) :
    s.added = s.active + s.succeeded + s.failed := by
  induction h with
  | init => simp
  | step hr hs ih =>
    cases hs with
    | append =>
      dsimp only
      omega
    | flushDone n o =>
      have hsum := flush_deltas_sum n o
      dsimp only
      omega

/-- Witness for C2: the state after two appended events and one completed
two-item flush whose response failed one item satisfies the equation. -/
theorem c2_counter_invariant_witness :
    CReachable ⟨2, 0, 1, 1⟩ ∧
    (⟨2, 0, 1, 1⟩ : Counters).added =
      (⟨2, 0, 1, 1⟩ : Counters).active + (⟨2, 0, 1, 1⟩ : Counters).succeeded +
        (⟨2, 0, 1, 1⟩ : Counters).failed := by
  have h1 : CReachable ⟨1, 1, 0, 0⟩ :=
    CReachable.step CReachable.init (CStep.append ⟨0, 0, 0, 0⟩)
  have h2 : CReachable ⟨2, 2, 0, 0⟩ :=
    CReachable.step h1 (CStep.append ⟨1, 1, 0, 0⟩)
  have h3 : CReachable ⟨2, 0, 1, 1⟩ :=
    CReachable.step h2
      (CStep.flushDone ⟨2, 2, 0, 0⟩ 2 (.ok [[⟨409, "version_conflict", "exists"⟩], [⟨201, "", ""⟩]]))
  exact ⟨h3, c2_counter_invariant ⟨2, 0, 1, 1⟩ h3⟩

/-- C9: when `ProcessBatch` hands an error back to the firehose handler, a
`ChannelClosed` error is mapped to the ShuttingDown result, a `Full` error
to the FullQueue result and every other error to the Internal result; on
success the handler responds with status 200 and a JSON body echoing the
envelope's requestId and timestamp. -/
theorem c9_handler_error_mapping (c : RequestCtx) (fh : FirehoseLog)
    (batch : List APMEvent) (m : String)
    (h1 : c.accessKey ≠ "") (h2 : c.authOk = true) (h3 : c.method = "POST")
    (h4 : c.body = some fh)
    (h5 : processFirehoseLog fh (requestMetadata c) = .ok batch) :
    (Handler c (fun _ => some .channelClosed)).id = .shuttingDown ∧
    (Handler c (fun _ => some .full)).id = .fullQueue ∧
    (Handler c (fun _ => some (.otherErr m))).id = .internal ∧
    Handler c (fun _ => none) =
      ⟨.validAccepted, some 200, some ⟨"", fh.requestId, fh.timestamp⟩,
       "application/json"⟩ := by
  simp [Handler, handle, h1, h2, h3, h4, h5]

/-- Witness for C9 at a concrete authenticated POST request. -/
theorem c9_handler_error_mapping_witness :
    (Handler ⟨"valid-key", true, "POST", some ⟨"req-1", 1600000000000, []⟩, ""⟩
        (fun _ => some .channelClosed)).id = .shuttingDown ∧
    (Handler ⟨"valid-key", true, "POST", some ⟨"req-1", 1600000000000, []⟩, ""⟩
        (fun _ => some .full)).id = .fullQueue ∧
    (Handler ⟨"valid-key", true, "POST", some ⟨"req-1", 1600000000000, []⟩, ""⟩
        (fun _ => some (.otherErr "boom"))).id = .internal ∧
    Handler ⟨"valid-key", true, "POST", some ⟨"req-1", 1600000000000, []⟩, ""⟩
        (fun _ => none) =
      ⟨.validAccepted, some 200, some ⟨"", "req-1", 1600000000000⟩,
       "application/json"⟩ :=
  c9_handler_error_mapping
    ⟨"valid-key", true, "POST", some ⟨"req-1", 1600000000000, []⟩, ""⟩
    ⟨"req-1", 1600000000000, []⟩ [] "boom" (by decide) rfl rfl rfl rfl

/-- The line loop equals "take lines up to the first empty line". -/
theorem linesToEvents_eq (fh : FirehoseLog) (base : APMEvent) (ls : List String) :
    linesToEvents fh base ls =
      (ls.takeWhile (fun l => l != "")).map (lineEvent fh base) := by
  induction ls with
  | nil => rfl
  | cons l rest ih =>
    by_cases h : l = ""
    · simp [linesToEvents, h, List.takeWhile_cons]
    · simp [linesToEvents, h, List.takeWhile_cons, ih]

/-- The accumulating record loop equals the reference version mapped over
the accumulator. -/
theorem processRecords_eq (fh : FirehoseLog) (base : APMEvent) (rs : List Record) :
    ∀ batch : List APMEvent,
      processRecords fh base rs batch =
        (specRecords fh base rs).map (fun evs => batch ++ evs) := by
  induction rs with
  | nil => intro batch; simp [processRecords, specRecords, Except.map]
  | cons r rest ih =>
    intro batch
    simp only [processRecords, specRecords]
    cases base64Decode r.data with
    | none => rfl
    | some s =>
      dsimp only
      rw [ih]
      cases specRecords fh base rest with
      | error e => rfl
      | ok evs => simp [Except.map, linesToEvents_eq, List.append_assoc]

/-- C1 counterexample: a record decoding to `"line1\n\nline2"` yields exactly
one event, with message `"line1"` — the loop breaks at the interior empty
line, so `"line2"` is dropped, contradicting the claim that lines after an
interior empty line are still appended. -/
theorem c1_firehose_lines_counterexample :
    (processFirehoseLog ⟨"req-1", 1600000000000, [⟨"bGluZTEKCmxpbmUy"⟩]⟩ {}).map
        (List.map APMEvent.message) = .ok ["line1"] ∧
    (Except.ok ["line1"] : Except String (List String)) ≠ .ok ["line1", "line2"] :=
  ⟨rfl, by simp⟩

/-- C1 (amended): for every firehose envelope, `processFirehoseLog`
base64-decodes each record, splits the decoded bytes on newline, and for
each line before the first empty line appends one clone of the base event
with `Timestamp = envelope.timestamp / 1000` seconds, `Processor = log` and
`Message = that line`; lines at and after the first empty line of a record
are dropped.  In particular a record decoding to `"line1\nline2"` yields
exactly two events with messages `"line1"` and `"line2"`. -/
theorem c1_firehose_lines_amended :
    (∀ (fh : FirehoseLog) (base : APMEvent),
        processFirehoseLog fh base = processFirehoseLogSpec fh base) ∧
    (processFirehoseLog ⟨"req-1", 1600000000000, [⟨"bGluZTEKbGluZTI="⟩]⟩ {}).map
        (List.map APMEvent.message) = .ok ["line1", "line2"] ∧
    (processFirehoseLog ⟨"req-1", 1600000000000, [⟨"bGluZTEKbGluZTI="⟩]⟩ {}).map
        (List.map APMEvent.timestampSec) = .ok [1600000000, 1600000000] ∧
    (processFirehoseLog ⟨"req-1", 1600000000000, [⟨"bGluZTEKbGluZTI="⟩]⟩ {}).map
        (List.map APMEvent.processor) = .ok [LogProcessor, LogProcessor] := by
  refine ⟨?_, rfl, rfl, rfl⟩
  intro fh base
  rw [processFirehoseLog, processFirehoseLogSpec, processRecords_eq]
  cases specRecords fh base fh.records with
  | error e => rfl
  | ok evs => simp [Except.map]

/-- Whenever the active slot is filled, `finishAppend` appends exactly the
given item at the end of the active (or handed-off) buffer. -/
theorem finishAppend_lastAppended (item : BulkIndexerItem) (s : IndexerState)
    (buf : BulkBuffer) (h : s.active = some buf) :
    lastAppended (finishAppend item s) = some item := by
  simp only [finishAppend, h]
  split_ifs <;> simp [lastAppended, addItem, List.concat_eq_append]

/-- Whenever the active slot is filled, `finishAppend` succeeds and bumps
both counters by one. -/
theorem finishAppend_ok (item : BulkIndexerItem) (s : IndexerState)
    (buf : BulkBuffer) (h : s.active = some buf) :
    ∃ s' hb, finishAppend item s = .ok s' hb ∧
      s'.eventsAdded = s.eventsAdded + 1 ∧ s'.eventsActive = s.eventsActive + 1 := by
  simp only [finishAppend, h]
  split_ifs <;> exact ⟨_, _, rfl, rfl, rfl⟩

/-- C8: every event appended to a bulk buffer becomes a bulk item whose
target is exactly `DataStream.Type + "-" + DataStream.Dataset + "-" +
DataStream.Namespace` and whose action is the string `"create"` (never
`"index"`), for every event processed by `processEvent`. -/
theorem c8_create_action (c : Bool) (ev : APMEvent) (s s' : IndexerState)
    (hb : Option BulkBuffer) (h : processEvent c ev s = .ok s' hb) :
    lastAppended (processEvent c ev s) =
      some ⟨ev.dataStream.type ++ "-" ++ ev.dataStream.dataset ++ "-" ++
              ev.dataStream.«namespace», "create", ev.bodyLen⟩ ∧
    "create" ≠ "index" := by
  refine ⟨?_, by decide⟩
  cases hA : s.active with
  | some buf =>
    have hfa := finishAppend_lastAppended (eventItem ev) s buf hA
    simpa [processEvent, hA, eventItem] using hfa
  | none =>
    by_cases hc : c = true
    · rw [processEvent] at h
      simp [hA, hc] at h
    · by_cases hav : s.available = 0
      · rw [processEvent] at h
        simp [hA, hc, hav] at h
      · have hfa := finishAppend_lastAppended (eventItem ev)
          { s with
            active := some emptyBuffer
            available := s.available - 1
            timerArmed := true } emptyBuffer rfl
        simpa [processEvent, hA, hc, hav, eventItem] using hfa

/-- Witness for C8 at a concrete event and state with a filling buffer. -/
theorem c8_create_action_witness :
    lastAppended (processEvent false
        { dataStream := ⟨"traces", "apm", "default"⟩, bodyLen := 100 }
        ⟨⟨10, 1000000, 30000000000⟩, 1, some ⟨[], 0⟩, true, 0, 0⟩) =
      some ⟨"traces" ++ "-" ++ "apm" ++ "-" ++ "default", "create", 100⟩ ∧
    "create" ≠ "index" :=
  c8_create_action false
    { dataStream := ⟨"traces", "apm", "default"⟩, bodyLen := 100 }
    ⟨⟨10, 1000000, 30000000000⟩, 1, some ⟨[], 0⟩, true, 0, 0⟩
    ⟨⟨10, 1000000, 30000000000⟩, 1,
     some ⟨[⟨"traces-apm-default", "create", 100⟩], 124⟩, true, 1, 1⟩
    none (by decide)

/-- C10: `processEvent` consults the caller's context only when the active
buffer slot is empty; with an active buffer present the outcome is
independent of whether the context is already cancelled, the event is
appended (both counters bump by one), and so is the whole `ProcessBatch`
call. -/
theorem c10_ctx_only_when_taking_buffer (ev : APMEvent) (s : IndexerState)
    (b : BulkBuffer) (h : s.active = some b) :
    processEvent true ev s = processEvent false ev s ∧
    ProcessBatch true [ev] ⟨false, s⟩ = ProcessBatch false [ev] ⟨false, s⟩ ∧
    (∃ s' hb, processEvent true ev s = .ok s' hb ∧
      s'.eventsAdded = s.eventsAdded + 1 ∧ s'.eventsActive = s.eventsActive + 1) := by
  have heq : processEvent true ev s = processEvent false ev s := by
    simp [processEvent, h]
  have hpe : processEvent true ev s = finishAppend (eventItem ev) s := by
    simp [processEvent, h]
  refine ⟨heq, ?_, ?_⟩
  · simp [ProcessBatch, processEvents, heq]
  · rw [hpe]
    exact finishAppend_ok (eventItem ev) s b h

/-- Witness for C10: a state whose active buffer is one item short of the
byte threshold, with the caller's context already cancelled — the event is
still appended and triggers the threshold handoff. -/
theorem c10_ctx_only_when_taking_buffer_witness :
    (processEvent true { dataStream := ⟨"logs", "firehose", "default"⟩, bodyLen := 1 }
        ⟨⟨1, 1, 1⟩, 0, some ⟨[], 0⟩, true, 0, 0⟩ =
      processEvent false { dataStream := ⟨"logs", "firehose", "default"⟩, bodyLen := 1 }
        ⟨⟨1, 1, 1⟩, 0, some ⟨[], 0⟩, true, 0, 0⟩ ∧
     ProcessBatch true [{ dataStream := ⟨"logs", "firehose", "default"⟩, bodyLen := 1 }]
        ⟨false, ⟨⟨1, 1, 1⟩, 0, some ⟨[], 0⟩, true, 0, 0⟩⟩ =
      ProcessBatch false [{ dataStream := ⟨"logs", "firehose", "default"⟩, bodyLen := 1 }]
        ⟨false, ⟨⟨1, 1, 1⟩, 0, some ⟨[], 0⟩, true, 0, 0⟩⟩ ∧
     (∃ s' hb, processEvent true
          { dataStream := ⟨"logs", "firehose", "default"⟩, bodyLen := 1 }
          ⟨⟨1, 1, 1⟩, 0, some ⟨[], 0⟩, true, 0, 0⟩ = .ok s' hb ∧
        s'.eventsAdded = 0 + 1 ∧ s'.eventsActive = 0 + 1)) ∧
    processEvent true { dataStream := ⟨"logs", "firehose", "default"⟩, bodyLen := 1 }
        ⟨⟨1, 1, 1⟩, 0, some ⟨[], 0⟩, true, 0, 0⟩ =
      .ok ⟨⟨1, 1, 1⟩, 0, none, false, 1, 1⟩
        (some ⟨[⟨"logs-firehose-default", "create", 1⟩], 28⟩) :=
  ⟨c10_ctx_only_when_taking_buffer
      { dataStream := ⟨"logs", "firehose", "default"⟩, bodyLen := 1 }
      ⟨⟨1, 1, 1⟩, 0, some ⟨[], 0⟩, true, 0, 0⟩ ⟨[], 0⟩ rfl,
   by decide⟩

/-- Every step of the timer machine preserves the invariant. -/
theorem tstep_inv {m m' : TimerMachine} (hm : TInv m) (hs : TStep m m') : TInv m' := by
  obtain ⟨h1, h2, h3, h4, h5⟩ := hm
  cases hs with
  | takeBuffer h =>
    obtain ⟨hr, hp⟩ := h1 h
    refine ⟨fun hc => by simp [takeBufferStep] at hc,
            fun hf => by simp [takeBufferStep, hp] at hf,
            fun x hx => Nat.lt_succ_of_lt (h3 x hx),
            fun b hb => ?_, h5⟩
    injection hb with hb
    subst hb
    exact ⟨Nat.lt_succ_self _, fun hmem => Nat.lt_irrefl _ (h3 _ hmem)⟩
  | appendBelow b h => exact ⟨h1, h2, h3, h4, h5⟩
  | thresholdStop b h =>
    by_cases htr : m.timerRunning = true
    · have hb := h4 b h
      have hp : m.firePending = false := by
        cases hfp : m.firePending
        · rfl
        · rw [h2 hfp] at htr
          exact absurd htr (by simp)
      have hm' : thresholdStopStep m b =
          ⟨none, false, m.firePending, b :: m.handoffs, m.nextId⟩ := by
        simp [thresholdStopStep, htr]
      rw [hm']
      refine ⟨fun _ => ⟨rfl, hp⟩, fun _ => rfl, ?_, ?_, ?_⟩
      · intro x hx
        rcases List.mem_cons.mp hx with hx | hx
        · exact hx ▸ hb.1
        · exact h3 x hx
      · intro b' hb'
        simp at hb'
      · exact List.nodup_cons.mpr ⟨hb.2, h5⟩
    · have hm' : thresholdStopStep m b = m := by
        simp [thresholdStopStep, htr]
      rw [hm']
      exact ⟨h1, h2, h3, h4, h5⟩
  | timerFire h =>
    refine ⟨fun hc => ?_, fun _ => rfl, h3, fun b hb => h4 b hb, h5⟩
    rw [(h1 hc).1] at h
    exact absurd h (by simp)
  | timerCallback h =>
    cases hA : m.active with
    | none =>
      rw [(h1 hA).2] at h
      exact absurd h (by simp)
    | some b =>
      have hb := h4 b hA
      have hm' : timerCallbackStep m =
          ⟨none, m.timerRunning, false, b :: m.handoffs, m.nextId⟩ := by
        simp [timerCallbackStep, hA]
      rw [hm']
      refine ⟨fun _ => ⟨h2 h, rfl⟩, fun hf => by simp at hf, ?_, ?_, ?_⟩
      · intro x hx
        rcases List.mem_cons.mp hx with hx | hx
        · exact hx ▸ hb.1
        · exact h3 x hx
      · intro b' hb'
        simp at hb'
      · exact List.nodup_cons.mpr ⟨hb.2, h5⟩

/-- Every reachable timer-machine state satisfies the invariant. -/
theorem treachable_inv {m : TimerMachine} (h : TReachable m) : TInv m := by
  induction h with
  | init =>
    exact ⟨fun _ => ⟨rfl, rfl⟩, fun hf => by simp at hf, by simp,
           fun b hb => by simp at hb, List.nodup_nil⟩
  | step hr hs ih => exact tstep_inv ih hs

/-- C4: after appending an event whose post-append buffer length reaches
`FlushBytes`, `processEvent` hands the buffer off immediately if and only if
stopping the timer succeeds (the timer is still armed); and along any run of
the timer machine each buffer is handed off at most once — in particular,
when the stop fails because the timer already fired, no second handoff of
that buffer occurs. -/
theorem c4_threshold_handoff_iff_stop (c : Bool) (ev : APMEvent) (s : IndexerState)
    (b : BulkBuffer) (m : TimerMachine) (h : s.active = some b)
    (hlen : ((addItem b (eventItem ev)).len : Int) ≥ s.config.flushBytes)
    (hm : TReachable m) :
    ((∃ s', processEvent c ev s = .ok s' (some (addItem b (eventItem ev)))) ↔
      s.timerArmed = true) ∧
    m.handoffs.Nodup := by
  refine ⟨?_, (treachable_inv hm).2.2.2.2⟩
  have hpe : processEvent c ev s = finishAppend (eventItem ev) s := by
    simp [processEvent, h]
  constructor
  · rintro ⟨s', hs⟩
    by_cases hta : s.timerArmed = true
    · exact hta
    · rw [hpe] at hs
      simp only [finishAppend, h] at hs
      rw [if_pos ?_, if_neg hta] at hs
      · exact absurd hs (by simp)
      · exact hlen
  · intro hta
    rw [hpe]
    simp only [finishAppend, h]
    rw [if_pos ?_, if_pos hta]
    · exact ⟨_, rfl⟩
    · exact hlen

/-- Witness for C4: a one-item append that reaches the threshold with the
timer armed is handed off immediately, and the machine run
take-buffer/threshold-stop has distinct handoffs. -/
theorem c4_threshold_handoff_iff_stop_witness :
    ((∃ s', processEvent false { dataStream := ⟨"logs", "firehose", "default"⟩, bodyLen := 2 }
          ⟨⟨1, 5, 1⟩, 0, some ⟨[], 0⟩, true, 0, 0⟩ =
        .ok s' (some (addItem ⟨[], 0⟩
          (eventItem { dataStream := ⟨"logs", "firehose", "default"⟩, bodyLen := 2 })))) ↔
      true = true) ∧
    (thresholdStopStep (takeBufferStep ⟨none, false, false, [], 0⟩) 0).handoffs.Nodup :=
  c4_threshold_handoff_iff_stop false
    { dataStream := ⟨"logs", "firehose", "default"⟩, bodyLen := 2 }
    ⟨⟨1, 5, 1⟩, 0, some ⟨[], 0⟩, true, 0, 0⟩ ⟨[], 0⟩
    (thresholdStopStep (takeBufferStep ⟨none, false, false, [], 0⟩) 0)
    rfl (by decide)
    (TReachable.step (TReachable.step TReachable.init (TStep.takeBuffer _ rfl))
      (TStep.thresholdStop _ 0 rfl))

end ApmServer
